import Mathlib

/-
  Verification of the "unf-micropython" BLE scale firmware core.

  The definitions below are a shallow embedding, translated from the
  MicroPython sources:
    * src/esp32-s3/unf_s3_v1_3_2.py   (BLEScale.save_received_data, the
      tolerant line framer/parser that the IRQ handler calls, and
      BLEScale.send_tx_as_json_response)
    * src/lib/power_manager.py        (PowerManager)
    * src/esp32-c6/led_manager_c6_combo.py (C6ComboLEDManager)
    * src/lib/s3_neopixel_led_manager_v1_5_1.py (S3RGBManager)

  Modelling conventions:
    * Python byte strings / decoded text are modelled as `List Char`
      (the payloads of interest are ASCII; chunk boundaries never change
      which bytes end up in which newline-delimited line, so the
      byte/char distinction is irrelevant to the stated properties).
    * Python floats are modelled as exact rationals.  Because the
      library `Rat.add`/`Rat.mul` are `@[irreducible]`, all arithmetic
      used by the embedding is written directly on numerators and
      denominators via `mkRat`, which the kernel can evaluate.
    * `time.ticks_ms` timestamps are modelled as natural numbers and
      `ticks_diff` as integer subtraction (no wrap-around in the ranges
      the claims quantify over).
-/

set_option maxHeartbeats 1000000

namespace UNF

/-! ### Exact-rational stand-ins for Python float arithmetic -/

/-- Python `abs` on a rational. -/
def pyAbs (a : Rat) : Rat := mkRat |a.num| a.den

/-- Python `<` on rationals (denominators are positive). -/
def pyLt (a b : Rat) : Bool := a.num * (b.den : Int) < b.num * (a.den : Int)

/-- Python `int(x)` on a float: truncation toward zero. -/
def pyInt (q : Rat) : Int := Int.tdiv q.num (q.den : Int)

/-- Round a rational to the nearest integer, ties to even
(the rounding used by Python's `round`). -/
def roundHalfEven (q : Rat) : Int :=
  let n := q.num
  let d := (q.den : Int)
  let f := Int.fdiv n d
  let r2 := 2 * (n - f * d)
  if r2 < d then f
  else if d < r2 then f + 1
  else if f % 2 = 0 then f else f + 1

/-- Python `round(x, 7)` modelled exactly on rationals. -/
def pyRound7 (q : Rat) : Rat :=
  mkRat (roundHalfEven (mkRat (q.num * 10 ^ 7) q.den)) (10 ^ 7)

/-! ### Characters and Python string helpers -/

def lbrace : Char := Char.ofNat 123
def rbrace : Char := Char.ofNat 125
def nlChar : Char := Char.ofNat 10
def quoteMark : Char := Char.ofNat 34
def tabChar : Char := Char.ofNat 9

/-- ASCII whitespace, the set stripped by Python `bytes.strip()`. -/
def pySpace (c : Char) : Bool :=
  c = ' ' || c = tabChar || c = nlChar ||
  c = Char.ofNat 11 || c = Char.ofNat 12 || c = Char.ofNat 13

/-- Python `.strip()` on both ends. -/
def pyStrip (l : List Char) : List Char :=
  ((l.dropWhile pySpace).reverse.dropWhile pySpace).reverse

/-- The characters removed by the parser's
`replace(BOM, "").replace(NUL, "").replace(CR, "")` chain. -/
def isJunkChar (c : Char) : Bool :=
  c = Char.ofNat 65279 || c = Char.ofNat 0 || c = Char.ofNat 13

def removeJunk (l : List Char) : List Char := l.filter (fun c => !isJunkChar c)

/-- Python `text.find(pat)`: index of the first occurrence, `none` for -1. -/
def strFind : List Char → List Char → Option Nat
  | [], pat => if pat.isEmpty then some 0 else none
  | c :: cs, pat =>
    if pat.isPrefixOf (c :: cs) then some 0 else (strFind cs pat).map (· + 1)

/-- Python `text.find(pat, i)`. -/
def strFindFrom (text pat : List Char) (i : Nat) : Option Nat :=
  (strFind (text.drop i) pat).map (· + i)

/-- Python `text.rfind(c)` for a single character. -/
def strRFind (text : List Char) (c : Char) : Option Nat :=
  (strFind text.reverse [c]).map (fun j => text.length - 1 - j)

/-! ### Python `float()` on the scanned numeric token -/

/-- The character class `"-+0123456789.eE"` scanned by `_extract_number`. -/
def isNumChar (c : Char) : Bool :=
  c.isDigit || c = '-' || c = '+' || c = '.' || c = 'e' || c = 'E'

def digitsToNat (ds : List Char) : Nat :=
  ds.foldl (fun a c => a * 10 + (c.toNat - 48)) 0

def splitSign : List Char → Bool × List Char
  | [] => (false, [])
  | c :: r =>
    if c = '-' then (true, r) else if c = '+' then (false, r) else (false, c :: r)

/-- Assemble `(-1)^neg * ip.fp * 10^ex` as an exact rational. -/
def ratOfParts (neg : Bool) (ip fp : List Char) (ex : Int) : Rat :=
  let m : Int := (digitsToNat ip * 10 ^ fp.length + digitsToNat fp : Nat)
  let sm : Int := if neg then -m else m
  let e : Int := ex - fp.length
  if 0 ≤ e then mkRat (sm * 10 ^ e.toNat) 1 else mkRat sm (10 ^ (-e).toNat)

/-- Python `float(s)` restricted to the `"-+0123456789.eE"` alphabet;
`none` models the `ValueError` swallowed by `_extract_number`. -/
def pyFloat (s : List Char) : Option Rat :=
  let p := splitSign s
  let ip := p.2.takeWhile Char.isDigit
  let r1 := p.2.dropWhile Char.isDigit
  let hasDot := r1.head? = some '.'
  let fp := if hasDot then r1.tail.takeWhile Char.isDigit else []
  let r2 := if hasDot then r1.tail.dropWhile Char.isDigit else r1
  if ip.isEmpty && fp.isEmpty then none
  else
    match r2 with
    | [] => some (ratOfParts p.1 ip fp 0)
    | e :: r3 =>
      if e = 'e' || e = 'E' then
        let pe := splitSign r3
        let ed := pe.2.takeWhile Char.isDigit
        let r5 := pe.2.dropWhile Char.isDigit
        if ed.isEmpty || !r5.isEmpty then none
        else
          some (ratOfParts p.1 ip fp
            (if pe.1 then -(digitsToNat ed : Int) else (digitsToNat ed : Int)))
      else none

/-! ### The tolerant per-line field extraction
(`BLEScale.save_received_data` of unf_s3_v1_3_2.py, steps 3-7) -/

/-- `_extract_number(text, key)` from `save_received_data`:
find `"key"`, find the `:` from the pattern start, skip spaces/tabs,
scan the numeric character class, convert with `float`. -/
def extract_number (text key : List Char) : Option Rat :=
  let pattern := quoteMark :: (key ++ [quoteMark])
  match strFind text pattern with
  | none => none
  | some i0 =>
    match strFindFrom text [':'] i0 with
    | none => none
    | some i1 =>
      let tail := (text.drop (i1 + 1)).dropWhile (fun c => c = ' ' || c = tabChar)
      let tok := tail.takeWhile isNumChar
      if tok.isEmpty then none else pyFloat tok

/-- Step 5 of the parser: crop to the first `{` and the last `}`;
`none` models the `continue` on `lb == -1 or rb == -1 or rb <= lb`. -/
def cropBraces (s : List Char) : Option (List Char) :=
  match strFind s [lbrace], strRFind s rbrace with
  | some lb, some rb => if rb ≤ lb then none else some ((s.drop lb).take (rb + 1 - lb))
  | _, _ => none

/-- The cleaning applied to one complete line before cropping:
`bytes.strip()`, decode (identity here), junk removal, `str.strip()`. -/
def cleanLine (line : List Char) : List Char :=
  pyStrip (removeJunk (pyStrip line))

inductive Field where
  | time | latitude | longitude | speed | altitude | accuracy
deriving DecidableEq

/-- One channel's stored telemetry record (`fused_rx_data` / `gps_rx_data`). -/
structure Telemetry where
  time : Rat
  latitude : Rat
  longitude : Rat
  speed : Rat
  altitude : Rat
  accuracy : Rat
deriving DecidableEq

/-- The all-zero record the firmware starts from and resets to. -/
def Telemetry.init : Telemetry := ⟨0, 0, 0, 0, 0, 0⟩

def Telemetry.get (r : Telemetry) : Field → Rat
  | .time => r.time
  | .latitude => r.latitude
  | .longitude => r.longitude
  | .speed => r.speed
  | .altitude => r.altitude
  | .accuracy => r.accuracy

def Telemetry.set (r : Telemetry) (f : Field) (v : Rat) : Telemetry :=
  match f with
  | .time => { r with time := v }
  | .latitude => { r with latitude := v }
  | .longitude => { r with longitude := v }
  | .speed => { r with speed := v }
  | .altitude => { r with altitude := v }
  | .accuracy => { r with accuracy := v }

def latKey : List Char := "latitude".toList
def lonKey : List Char := "longitude".toList
def altKey : List Char := "altitude".toList
def spdKey : List Char := "speed".toList
def timKey : List Char := "time".toList
def accKey : List Char := "accuracy".toList

def optUpd (f : Field) : Option Rat → List (Field × Rat)
  | none => []
  | some v => [(f, v)]

/-- The field updates one complete raw line produces, in the order the
parser applies them (latitude, longitude, altitude, speed, time,
accuracy); `[]` models every `continue`/discard path. -/
def lineUpdates (line : List Char) : List (Field × Rat) :=
  let jb := pyStrip line
  if jb.isEmpty then [] else
  let s0 := pyStrip (removeJunk jb)
  if s0.isEmpty then [] else
  match cropBraces s0 with
  | none => []
  | some t =>
    optUpd .latitude ((extract_number t latKey).map pyRound7) ++
    optUpd .longitude ((extract_number t lonKey).map pyRound7) ++
    optUpd .altitude (extract_number t altKey) ++
    optUpd .speed (extract_number t spdKey) ++
    optUpd .time ((extract_number t timKey).map (fun q => mkRat (pyInt q) 1)) ++
    optUpd .accuracy (extract_number t accKey)

def applyUpdate (r : Telemetry) (u : Field × Rat) : Telemetry := r.set u.1 u.2

def applyUpdates (r : Telemetry) (us : List (Field × Rat)) : Telemetry :=
  us.foldl applyUpdate r

/-! ### The framer state machine -/

/-- The write characteristics a GATT write can carry
(`fused_rx_handle`, `gps_rx_handle`, anything else). -/
inductive Handle where
  | fusedRx | gpsRx | unknown
deriving DecidableEq

/-- `BLEScale` ingestion state: the two per-channel records and the
single shared `rx_buffer`. -/
structure BLEState where
  fused : Telemetry
  gps : Telemetry
  buf : List Char
deriving DecidableEq

def initState : BLEState := ⟨Telemetry.init, Telemetry.init, []⟩

/-- Route a line's updates to the record selected by the handle
(`target = None` for an unknown handle applies nothing). -/
def applyTo (h : Handle) (fused gps : Telemetry) (us : List (Field × Rat)) :
    Telemetry × Telemetry :=
  match h with
  | .fusedRx => (applyUpdates fused us, gps)
  | .gpsRx => (fused, applyUpdates gps us)
  | .unknown => (fused, gps)

/-- The updates actually applied to a stored record by one line. -/
def appliedUpdates (h : Handle) (line : List Char) : List (Field × Rat) :=
  match h with
  | .unknown => []
  | _ => lineUpdates line

/-- `rx_buffer.split(b"\n", 1)`: first line (newline removed) and rest. -/
def splitNl : List Char → Option (List Char × List Char)
  | [] => none
  | c :: cs =>
    if c = nlChar then some ([], cs)
    else
      match splitNl cs with
      | none => none
      | some p => some (c :: p.1, p.2)

/-- The `while b"\n" in rx_buffer` loop, with explicit fuel (one unit
per buffered character is enough, since each iteration consumes at
least the newline). -/
def drainF : Nat → Handle → BLEState → BLEState × List (Field × Rat)
  | 0, _, s => (s, [])
  | Nat.succ n, h, s =>
    match splitNl s.buf with
    | none => (s, [])
    | some p =>
      let us := lineUpdates p.1
      let q := applyTo h s.fused s.gps us
      let r := drainF n h ⟨q.1, q.2, p.2⟩
      (r.1, appliedUpdates h p.1 ++ r.2)

def drain (h : Handle) (s : BLEState) : BLEState × List (Field × Rat) :=
  drainF s.buf.length h s

/-- `BLEScale.save_received_data(attr_handle, raw_data)`: append the
chunk to the shared buffer, then drain every complete line.  Also
returns the sequence of applied field updates. -/
def save_received_data (s : BLEState) (h : Handle) (raw : List Char) :
    BLEState × List (Field × Rat) :=
  drain h ⟨s.fused, s.gps, s.buf ++ raw⟩

/-- Ingest a list of chunks one call at a time, concatenating traces. -/
def ingestMany (s : BLEState) (h : Handle) : List (List Char) → BLEState × List (Field × Rat)
  | [] => (s, [])
  | d :: ds =>
    let r := save_received_data s h d
    let r2 := ingestMany r.1 h ds
    (r2.1, r.2 ++ r2.2)

/-! ### Concrete byte sequences used by the claims -/

def latLine : List Char := "\x7b\"latitude\":1.0\x7d\n".toList
def lonLine : List Char := "\x7b\"longitude\":2.0\x7d\n".toList
def chunkA : List Char := "\x7b\"lati".toList
def chunkB : List Char := "tude\":1.0\x7d\n\x7b\"longi".toList
def chunkC : List Char := "tude\":2.0\x7d\n".toList
def c1Chunks : List (List Char) := [chunkA, chunkB, chunkC]
def fusedPendingChunk : List Char := "\x7b\"latitude\":9.0".toList
def gpsClosingChunk : List Char := "\x7d\n".toList
def notJsonBody : List Char := "not-json".toList
def notJsonLine : List Char := "not-json\n".toList
def lat3Line : List Char := "\x7b\"latitude\":3.0\x7d\n".toList
def croppedLine : List Char := "xx\x7b\"latitude\":5.0\x7dyy\n".toList


/-! ### PowerManager (src/lib/power_manager.py) -/

def NO_LOAD_THRESHOLD_G : Rat := 1
def NO_LOAD_STABLE_SAMPLES : Nat := 20
def NO_LOAD_IDLE_SECONDS : Rat := 30

structure PMState where
  no_load_count : Nat
  last_active_ms : Nat
  idle : Bool
deriving DecidableEq

/-- `PowerManager.__init__` at clock reading `t0`. -/
def pmInit (t0 : Nat) : PMState := ⟨0, t0, false⟩

/-- `PowerManager.update_with_weight(weight_g)` at clock reading `now`. -/
def update_with_weight (s : PMState) (now : Nat) (weight_g : Rat) : PMState :=
  if pyLt (pyAbs weight_g) NO_LOAD_THRESHOLD_G then
    let s1 : PMState := { s with no_load_count := s.no_load_count + 1 }
    if NO_LOAD_STABLE_SAMPLES ≤ s1.no_load_count then { s1 with idle := true } else s1
  else ⟨0, now, false⟩

/-- Feed a list of (timestamp, weight) samples through the manager. -/
def runPM (s : PMState) (samples : List (Nat × Rat)) : PMState :=
  samples.foldl (fun a p => update_with_weight a p.1 p.2) s

/-- `PowerManager.should_enter_deep_idle()` at clock reading `now`. -/
def should_enter_deep_idle (s : PMState) (now : Nat) : Bool :=
  if !s.idle then false
  else pyLt NO_LOAD_IDLE_SECONDS (mkRat ((now : Int) - (s.last_active_ms : Int)) 1000)

/-- Nineteen consecutive zero-weight samples (for the C6 witness). -/
def samples19 : List (Nat × Rat) := List.replicate 19 ((0 : Nat), (0 : Rat))

/-! ### Telemetry responder (`BLEScale.send_tx_as_json_response`) -/

inductive TxHandle where
  | weightTx | fusedTx | gpsTx | unknown
deriving DecidableEq

/-- The fixed-key outbound payload (`tx_data`); `from_` stands for the
Python key `"from"`. -/
structure TxData where
  from_ : String
  weight : Rat
  time : Rat
  latitude : Rat
  longitude : Rat
  speed : Rat
  altitude : Rat
  accuracy : Rat
  idle : Bool
deriving DecidableEq

/-- `tx_data.update(rx_data)`: overwrite the six location keys from a
stored record (the record dict has exactly those six keys). -/
def TxData.updateFrom (t : TxData) (r : Telemetry) : TxData :=
  { t with time := r.time, latitude := r.latitude, longitude := r.longitude,
           speed := r.speed, altitude := r.altitude, accuracy := r.accuracy }

/-- `BLEScale.send_tx_as_json_response(attr_handle)`: the payload built
for a read of the given TX characteristic; `none` models the
unknown-handle early return, which sends nothing. -/
def send_tx_as_json_response (h : TxHandle) (weight_tx : Rat) (pm_idle : Bool)
    (fused gps : Telemetry) : Option TxData :=
  let base : TxData := ⟨"", weight_tx, 0, 0, 0, 0, 0, 0, pm_idle⟩
  match h with
  | .weightTx => some { base with from_ := "weight" }
  | .fusedTx => some { base.updateFrom fused with from_ := "fused" }
  | .gpsTx => some { base.updateFrom gps with from_ := "gps" }
  | .unknown => none


/-! ### Indicator colors and timing helpers -/

structure Color where
  r : Nat
  g : Nat
  b : Nat
deriving DecidableEq

def C_OFF : Color := ⟨0, 0, 0⟩
def C_B : Color := ⟨0, 0, 255⟩
def C_G : Color := ⟨0, 255, 0⟩
def C_R : Color := ⟨255, 0, 0⟩

/-- `_win(now, t0, win)`: `t0 is not None and ticks_diff(now, t0) < win`. -/
def winB (now : Nat) (t0 : Option Nat) (w : Nat) : Bool :=
  match t0 with
  | none => false
  | some t => decide ((now : Int) - (t : Int) < (w : Int))

/-- `_blink(now, period)`: `0 if period <= 0 else (now // (period // 2 or 1)) & 1`. -/
def blinkPhase (now : Nat) (period : Nat) : Nat :=
  if period = 0 then 0 else (now / (max (period / 2) 1)) % 2

/-! ### C6ComboLEDManager (src/esp32-c6/led_manager_c6_combo.py) -/

namespace Combo

structure Cfg where
  p_blue : Nat
  w_green : Nat
  p_green : Nat
  w_red : Nat
  p_red : Nat
deriving DecidableEq

/-- The constructor's default timings. -/
def defaults : Cfg := ⟨1000, 600, 200, 2000, 180⟩

structure LState where
  connected : Bool
  t_xfer : Option Nat
  t_err : Option Nat
deriving DecidableEq

def initL : LState := ⟨false, none, none⟩

def on_connect (s : LState) : LState := { s with connected := true }

def on_disconnect (s : LState) : LState := { s with connected := false, t_xfer := none }

def on_transfer (s : LState) (now : Nat) : LState := { s with t_xfer := some now }

def on_error (s : LState) (now : Nat) : LState := { s with t_err := some now }

/-- `C6ComboLEDManager.update()`: the color resolved and passed to
`_set_rgb` on this tick. -/
def update (cfg : Cfg) (s : LState) (now : Nat) : Color :=
  if winB now s.t_err cfg.w_red then
    (if blinkPhase now cfg.p_red = 1 then C_R else C_OFF)
  else if s.connected && winB now s.t_xfer cfg.w_green then
    (if blinkPhase now cfg.p_green = 1 then C_G else C_OFF)
  else if s.connected then C_B
  else if blinkPhase now cfg.p_blue = 1 then C_B else C_OFF

/-- Physical-output state: NeoPixel health + last written pixel, and the
three discrete pin levels. -/
structure OutState where
  np_ok : Bool
  np_px : Option Color
  pin_r : Bool
  pin_g : Bool
  pin_b : Bool
deriving DecidableEq

/-- `_pin_set` polarity: invert when `active_low_rgb`. -/
def pinVal (active_low : Bool) (v : Bool) : Bool := if active_low then !v else v

/-- `_scale(rgb, b)`: per-channel `int(channel * brightness)`. -/
def scaleColor (br : Rat) (c : Color) : Color :=
  ⟨(pyInt (mkRat ((c.r : Int) * br.num) br.den)).toNat,
   (pyInt (mkRat ((c.g : Int) * br.num) br.den)).toNat,
   (pyInt (mkRat ((c.b : Int) * br.num) br.den)).toNat⟩

/-- `_set_rgb(rgb)`; `np_fail` injects the exception a failing
`NeoPixel.write()` would raise (only relevant while `np_ok`). -/
def set_rgb (active_low : Bool) (br : Rat) (o : OutState) (c : Color) (np_fail : Bool) :
    OutState :=
  let o1 :=
    if o.np_ok then
      if np_fail then { o with np_ok := false }
      else { o with np_px := some (scaleColor br c) }
    else o
  { o1 with
    pin_r := pinVal active_low (decide (0 < c.r)),
    pin_g := pinVal active_low (decide (0 < c.g)),
    pin_b := pinVal active_low (decide (0 < c.b)) }

/-- One `update()` tick including its output write. -/
def tick (cfg : Cfg) (active_low : Bool) (br : Rat) (s : LState) (o : OutState)
    (now : Nat) (np_fail : Bool) : OutState :=
  set_rgb active_low br o (update cfg s now) np_fail

end Combo

/-! ### S3RGBManager (src/lib/s3_neopixel_led_manager_v1_5_1.py) -/

namespace S3M

structure Cfg where
  p_blue : Nat
  w_green : Nat
  p_green : Nat
deriving DecidableEq

/-- The constructor's default timings. -/
def defaults : Cfg := ⟨1000, 600, 200⟩

structure MState where
  connected : Bool
  t_xfer : Option Nat
  error_active : Bool
deriving DecidableEq

def initM : MState := ⟨false, none, false⟩

/-- `S3RGBManager.update()`: the color passed to `_set` on this tick. -/
def update (cfg : Cfg) (s : MState) (now : Nat) : Color :=
  if s.error_active then C_R
  else if s.connected && winB now s.t_xfer cfg.w_green then
    (if blinkPhase now cfg.p_green = 1 then C_G else C_OFF)
  else if s.connected then C_B
  else if blinkPhase now cfg.p_blue = 1 then C_B else C_OFF

/-- The manager's public API calls, timestamped where the source reads
the clock. -/
inductive Ev where
  | connect
  | disconnect
  | transfer (now : Nat)
  | errorEv
  | clearError (now : Nat)
  | updateEv (now : Nat)
deriving DecidableEq

def Ev.isClear : Ev → Bool
  | .clearError _ => true
  | _ => false

/-- One API call: the next state and the colors passed to `_set` during
the call (`on_connect`/`on_disconnect` skip their write while the error
flag is set; `clear_error` calls `update()` itself). -/
def step (cfg : Cfg) (s : MState) : Ev → MState × List Color
  | .connect =>
    ({ s with connected := true }, if s.error_active then [] else [C_B])
  | .disconnect =>
    ({ s with connected := false, t_xfer := none },
     if s.error_active then [] else [C_OFF])
  | .transfer now => ({ s with t_xfer := some now }, [])
  | .errorEv => ({ s with error_active := true }, [C_R])
  | .clearError now =>
    ({ s with error_active := false },
     [update cfg { s with error_active := false } now])
  | .updateEv now => (s, [update cfg s now])

/-- Run a sequence of API calls, concatenating the written colors. -/
def run (cfg : Cfg) (s : MState) : List Ev → MState × List Color
  | [] => (s, [])
  | e :: es =>
    let r := step cfg s e
    let r2 := run cfg r.1 es
    (r2.1, r.2 ++ r2.2)

end S3M

/-- An error-flagged S3 manager state (for the C10 witness). -/
def errS : S3M.MState := ⟨true, some 2, true⟩

/-- A clear-free event sequence exercising every other API call. -/
def evList : List S3M.Ev :=
  [S3M.Ev.connect, S3M.Ev.transfer 5, S3M.Ev.updateEv 10,
   S3M.Ev.disconnect, S3M.Ev.updateEv 999]


/-! ### A strict JSON decoder, modelled from the spec

The spec's framer contract has a "strict structured decode" first stage
(`ujson.loads`).  `ujson` is MicroPython library code, not part of this
repository, so the strict stage is modelled here from the spec's words
(standard JSON) for comparison with the tolerant scan the code runs. -/

def isJsonWs (c : Char) : Bool :=
  c = ' ' || c = tabChar || c = nlChar || c = Char.ofNat 13

def skipWs (s : List Char) : List Char := s.dropWhile isJsonWs

inductive JVal where
  | jnum : Rat → JVal
  | jstr : List Char → JVal
  | jbool : Bool → JVal
  | jnull : JVal
  | jarr : List JVal → JVal
  | jobj : List (List Char × JVal) → JVal

/-- Modelled from the spec: JSON escape characters. -/
def escChar (e : Char) : Option Char :=
  if e = quoteMark then some quoteMark
  else if e = '\\' then some '\\'
  else if e = '/' then some '/'
  else if e = 'n' then some nlChar
  else if e = 't' then some tabChar
  else if e = 'r' then some (Char.ofNat 13)
  else if e = 'b' then some (Char.ofNat 8)
  else if e = 'f' then some (Char.ofNat 12)
  else none

/-- Modelled from the spec: a JSON string body after the opening quote. -/
def parseJStrAux : List Char → Option (List Char × List Char)
  | [] => none
  | c :: r =>
    if c = quoteMark then some ([], r)
    else if c = '\\' then
      match r with
      | [] => none
      | e :: r2 =>
        match escChar e with
        | none => none
        | some ch => (parseJStrAux r2).map (fun p => (ch :: p.1, p.2))
    else (parseJStrAux r).map (fun p => (c :: p.1, p.2))

/-- Modelled from the spec: the tail of a JSON number (optional
exponent), given the already-scanned sign, integer and fraction parts. -/
def parseJExp (neg : Bool) (ip fp : List Char) (s : List Char) :
    Option (Rat × List Char) :=
  match s with
  | c :: r3 =>
    if c = 'e' || c = 'E' then
      let pe := splitSign r3
      let ed := pe.2.takeWhile Char.isDigit
      let r4 := pe.2.dropWhile Char.isDigit
      if ed.isEmpty then none
      else
        some (ratOfParts neg ip fp
          (if pe.1 then -(digitsToNat ed : Int) else (digitsToNat ed : Int)), r4)
    else some (ratOfParts neg ip fp 0, c :: r3)
  | [] => some (ratOfParts neg ip fp 0, [])

/-- Modelled from the spec: a strict JSON number
(`-? (0 | [1-9][0-9]*) (. [0-9]+)? ([eE][+-]?[0-9]+)?`). -/
def parseJNum (s : List Char) : Option (Rat × List Char) :=
  let neg := s.head? = some '-'
  let s1 := if neg then s.tail else s
  let ip := s1.takeWhile Char.isDigit
  let r1 := s1.dropWhile Char.isDigit
  if ip.isEmpty then none
  else if 1 < ip.length && ip.head? = some '0' then none
  else
    match r1 with
    | '.' :: r2 =>
      let fd := r2.takeWhile Char.isDigit
      if fd.isEmpty then none
      else parseJExp neg ip fd (r2.dropWhile Char.isDigit)
    | _ => parseJExp neg ip [] r1

mutual

/-- Modelled from the spec: a JSON value (fuel-indexed recursive
descent; one unit of fuel per character is ample). -/
def parseJVal : Nat → List Char → Option (JVal × List Char)
  | 0, _ => none
  | Nat.succ n, s =>
    match skipWs s with
    | [] => none
    | c :: r =>
      if c = quoteMark then (parseJStrAux r).map (fun p => (JVal.jstr p.1, p.2))
      else if c = lbrace then
        match skipWs r with
        | [] => none
        | d :: r2 =>
          if d = rbrace then some (JVal.jobj [], r2)
          else (parseJMembers n (skipWs r)).map (fun p => (JVal.jobj p.1, p.2))
      else if c = '[' then
        match skipWs r with
        | [] => none
        | d :: r2 =>
          if d = ']' then some (JVal.jarr [], r2)
          else (parseJItems n (skipWs r)).map (fun p => (JVal.jarr p.1, p.2))
      else if "true".toList.isPrefixOf (c :: r) then
        some (JVal.jbool true, (c :: r).drop 4)
      else if "false".toList.isPrefixOf (c :: r) then
        some (JVal.jbool false, (c :: r).drop 5)
      else if "null".toList.isPrefixOf (c :: r) then
        some (JVal.jnull, (c :: r).drop 4)
      else (parseJNum (c :: r)).map (fun p => (JVal.jnum p.1, p.2))

/-- Modelled from the spec: the members of a JSON object after `{`. -/
def parseJMembers : Nat → List Char → Option (List (List Char × JVal) × List Char)
  | 0, _ => none
  | Nat.succ n, s =>
    match skipWs s with
    | [] => none
    | c :: r =>
      if c = quoteMark then
        match parseJStrAux r with
        | none => none
        | some kp =>
          match skipWs kp.2 with
          | [] => none
          | d :: r2 =>
            if d = ':' then
              match parseJVal n r2 with
              | none => none
              | some vp =>
                match skipWs vp.2 with
                | [] => none
                | e :: r3 =>
                  if e = ',' then
                    (parseJMembers n r3).map (fun mp => ((kp.1, vp.1) :: mp.1, mp.2))
                  else if e = rbrace then some ([(kp.1, vp.1)], r3)
                  else none
            else none
      else none

/-- Modelled from the spec: the items of a JSON array after `[`. -/
def parseJItems : Nat → List Char → Option (List JVal × List Char)
  | 0, _ => none
  | Nat.succ n, s =>
    match parseJVal n s with
    | none => none
    | some vp =>
      match skipWs vp.2 with
      | [] => none
      | e :: r3 =>
        if e = ',' then (parseJItems n r3).map (fun p => (vp.1 :: p.1, p.2))
        else if e = ']' then some ([vp.1], r3)
        else none

end

/-- Modelled from the spec: `ujson.loads` — a strict decode of the whole
text, `none` on any malformed input. -/
def ujson_loads (s : List Char) : Option JVal :=
  match parseJVal (s.length + 1) s with
  | some p => if (skipWs p.2).isEmpty then some p.1 else none
  | none => none

/-- Python `dict` lookup for an object decoded from JSON: duplicate keys
keep the last binding. -/
def objLookup (kvs : List (List Char × JVal)) (k : List Char) : Option JVal :=
  (kvs.reverse.find? (fun p => p.1 == k)).map Prod.snd

def jnumOf : Option JVal → Option Rat
  | some (JVal.jnum q) => some q
  | _ => none

/-- Modelled from the spec: the strict first stage of the two-stage
parse — clean and crop the line exactly as the code does, strictly
decode it, and on success apply the recognized numeric top-level fields
(with the same lat/lon rounding and time truncation); `none` when the
strict decode fails. -/
def strictUpdates (line : List Char) : Option (List (Field × Rat)) :=
  match cropBraces (cleanLine line) with
  | none => none
  | some t =>
    match ujson_loads t with
    | some (JVal.jobj kvs) =>
      some (optUpd .latitude ((jnumOf (objLookup kvs latKey)).map pyRound7) ++
            optUpd .longitude ((jnumOf (objLookup kvs lonKey)).map pyRound7) ++
            optUpd .altitude (jnumOf (objLookup kvs altKey)) ++
            optUpd .speed (jnumOf (objLookup kvs spdKey)) ++
            optUpd .time ((jnumOf (objLookup kvs timKey)).map (fun q => mkRat (pyInt q) 1)) ++
            optUpd .accuracy (jnumOf (objLookup kvs accKey)))
    | _ => none

/-- A valid-JSON line on which strict decoding and the tolerant scan
disagree: the first `"latitude"` occurrence is inside a nested object. -/
def nestedLine : List Char :=
  "\x7b\"a\":\x7b\"latitude\":1.0\x7d,\"latitude\":2.0\x7d".toList


/-! ## Theorems -/


lemma splitNl_some_length {b : List Char} {p : List Char × List Char}
    (h : splitNl b = some p) : b.length = p.1.length + p.2.length + 1 := by
  induction b generalizing p with
  | nil => simp [splitNl] at h
  | cons c cs ih =>
    unfold splitNl at h
    split at h
    · cases h
      simp
    · cases hsp : splitNl cs with
      | none => rw [hsp] at h; cases h
      | some q =>
        rw [hsp] at h
        cases h
        have := ih hsp
        simp [this]
        omega

lemma splitNl_append {b c : List Char} {p : List Char × List Char}
    (h : splitNl b = some p) : splitNl (b ++ c) = some (p.1, p.2 ++ c) := by
  induction b generalizing p with
  | nil => simp [splitNl] at h
  | cons d cs ih =>
    unfold splitNl at h ⊢
    split at h
    · cases h
      simp_all
    · cases hsp : splitNl cs with
      | none => rw [hsp] at h; cases h
      | some q =>
        rw [hsp] at h
        cases h
        simp_all [ih hsp]

lemma drainF_congr : ∀ (n m : Nat) (h : Handle) (s : BLEState),
    s.buf.length ≤ n → s.buf.length ≤ m → drainF n h s = drainF m h s := by
  intro n
  induction n with
  | zero =>
    intro m h s hn _
    have hb : s.buf = [] := List.eq_nil_of_length_eq_zero (Nat.le_zero.mp hn)
    cases m with
    | zero => rfl
    | succ m => simp [drainF, hb, splitNl]
  | succ n ih =>
    intro m h s hn hm
    cases m with
    | zero =>
      have hb : s.buf = [] := List.eq_nil_of_length_eq_zero (Nat.le_zero.mp hm)
      simp [drainF, hb, splitNl]
    | succ m =>
      simp only [drainF]
      cases hsp : splitNl s.buf with
      | none => rfl
      | some p =>
        have hlen := splitNl_some_length hsp
        have h1 : p.2.length ≤ n := by omega
        have h2 : p.2.length ≤ m := by omega
        dsimp only
        rw [ih m h _ h1 h2]

lemma drain_eq_none (h : Handle) (s : BLEState) (hs : splitNl s.buf = none) :
    drain h s = (s, []) := by
  unfold drain
  cases hn : s.buf.length with
  | zero => rfl
  | succ n => simp [drainF, hs]

lemma drain_eq_some (h : Handle) (s : BLEState) (p : List Char × List Char)
    (hs : splitNl s.buf = some p) :
    drain h s =
      ((drain h ⟨(applyTo h s.fused s.gps (lineUpdates p.1)).1,
                 (applyTo h s.fused s.gps (lineUpdates p.1)).2, p.2⟩).1,
       appliedUpdates h p.1 ++
         (drain h ⟨(applyTo h s.fused s.gps (lineUpdates p.1)).1,
                   (applyTo h s.fused s.gps (lineUpdates p.1)).2, p.2⟩).2) := by
  have hlen := splitNl_some_length hs
  unfold drain
  have hk : s.buf.length = (p.1.length + p.2.length) + 1 := by omega
  rw [hk]
  simp only [drainF, hs]
  rw [drainF_congr (p.1.length + p.2.length) p.2.length h
      ⟨(applyTo h s.fused s.gps (lineUpdates p.1)).1,
       (applyTo h s.fused s.gps (lineUpdates p.1)).2, p.2⟩
      (Nat.le_add_left p.2.length p.1.length) (Nat.le_refl p.2.length)]

lemma drain_concat_aux : ∀ (n : Nat) (h : Handle) (fused gps : Telemetry) (b c : List Char),
    b.length ≤ n →
    drain h ⟨fused, gps, b ++ c⟩ =
      ((drain h ⟨(drain h ⟨fused, gps, b⟩).1.fused, (drain h ⟨fused, gps, b⟩).1.gps,
                 (drain h ⟨fused, gps, b⟩).1.buf ++ c⟩).1,
       (drain h ⟨fused, gps, b⟩).2 ++
         (drain h ⟨(drain h ⟨fused, gps, b⟩).1.fused, (drain h ⟨fused, gps, b⟩).1.gps,
                   (drain h ⟨fused, gps, b⟩).1.buf ++ c⟩).2) := by
  intro n
  induction n with
  | zero =>
    intro h fused gps b c hn
    have hb : b = [] := List.eq_nil_of_length_eq_zero (Nat.le_zero.mp hn)
    subst hb
    rw [drain_eq_none h ⟨fused, gps, []⟩ rfl]
    simp
  | succ n ih =>
    intro h fused gps b c hn
    cases hsp : splitNl b with
    | none =>
      rw [drain_eq_none h ⟨fused, gps, b⟩ hsp]
      simp
    | some p =>
      have hlen := splitNl_some_length hsp
      rw [drain_eq_some h ⟨fused, gps, b ++ c⟩ (p.1, p.2 ++ c) (splitNl_append hsp),
          drain_eq_some h ⟨fused, gps, b⟩ p hsp]
      rw [ih h _ _ p.2 c (by omega)]
      simp [List.append_assoc]

lemma drain_concat (h : Handle) (fused gps : Telemetry) (b c : List Char) :
    drain h ⟨fused, gps, b ++ c⟩ =
      ((drain h ⟨(drain h ⟨fused, gps, b⟩).1.fused, (drain h ⟨fused, gps, b⟩).1.gps,
                 (drain h ⟨fused, gps, b⟩).1.buf ++ c⟩).1,
       (drain h ⟨fused, gps, b⟩).2 ++
         (drain h ⟨(drain h ⟨fused, gps, b⟩).1.fused, (drain h ⟨fused, gps, b⟩).1.gps,
                   (drain h ⟨fused, gps, b⟩).1.buf ++ c⟩).2) :=
  drain_concat_aux b.length h fused gps b c le_rfl

lemma drain_buf_aux : ∀ (n : Nat) (h : Handle) (s : BLEState),
    s.buf.length ≤ n → splitNl ((drain h s).1.buf) = none := by
  intro n
  induction n with
  | zero =>
    intro h s hn
    have hb : s.buf = [] := List.eq_nil_of_length_eq_zero (Nat.le_zero.mp hn)
    rw [drain_eq_none h s (by rw [hb]; rfl), hb]
    rfl
  | succ n ih =>
    intro h s hn
    cases hsp : splitNl s.buf with
    | none => rw [drain_eq_none h s hsp]; exact hsp
    | some p =>
      have hlen := splitNl_some_length hsp
      rw [drain_eq_some h s p hsp]
      exact ih h _ (show p.2.length ≤ n by omega)

lemma drain_buf_none (h : Handle) (s : BLEState) :
    splitNl ((drain h s).1.buf) = none :=
  drain_buf_aux s.buf.length h s le_rfl



lemma get_set_ne (r : Telemetry) (f g : Field) (v : Rat) (h : f ≠ g) :
    (r.set g v).get f = r.get f := by
  cases f <;> cases g <;> simp_all [Telemetry.set, Telemetry.get]

lemma applyUpdates_not_mem (r : Telemetry) (us : List (Field × Rat)) (f : Field)
    (hf : f ∉ us.map Prod.fst) :
    (applyUpdates r us).get f = r.get f := by
  induction us generalizing r with
  | nil => rfl
  | cons u us ih =>
    simp only [List.map_cons, List.mem_cons] at hf
    push_neg at hf
    rw [show applyUpdates r (u :: us) = applyUpdates (applyUpdate r u) us from rfl]
    rw [ih (applyUpdate r u) hf.2]
    exact get_set_ne r f u.1 u.2 hf.1

lemma splitNl_terminated (l r : List Char) (hl : nlChar ∉ l) :
    splitNl (l ++ nlChar :: r) = some (l, r) := by
  induction l with
  | nil => simp [splitNl]
  | cons c cs ih =>
    simp only [List.mem_cons, not_or] at hl
    have hc : ¬(c = nlChar) := fun hcc => hl.1 hcc.symm
    simp [splitNl, hc, ih hl.2]

lemma applyTo_nil (h : Handle) (f g : Telemetry) : applyTo h f g [] = (f, g) := by
  cases h <;> rfl

lemma lineUpdates_of_crop_none (line : List Char)
    (hc : cropBraces (cleanLine line) = none) : lineUpdates line = [] := by
  unfold cleanLine at hc
  by_cases h1 : (pyStrip line).isEmpty
  · simp [lineUpdates, h1]
  · by_cases h2 : (pyStrip (removeJunk (pyStrip line))).isEmpty
    · simp [lineUpdates, h1, h2]
    · simp [lineUpdates, h1, h2, hc]

lemma drain_gps_pres_fused : ∀ (n : Nat) (f g : Telemetry) (b : List Char),
    b.length ≤ n → ((drain Handle.gpsRx ⟨f, g, b⟩).1).fused = f := by
  intro n
  induction n with
  | zero =>
    intro f g b hn
    have hb : b = [] := List.eq_nil_of_length_eq_zero (Nat.le_zero.mp hn)
    subst hb
    rw [drain_eq_none Handle.gpsRx ⟨f, g, []⟩ rfl]
  | succ n ih =>
    intro f g b hn
    cases hsp : splitNl b with
    | none => rw [drain_eq_none Handle.gpsRx ⟨f, g, b⟩ hsp]
    | some p =>
      have hlen := splitNl_some_length hsp
      rw [drain_eq_some Handle.gpsRx ⟨f, g, b⟩ p hsp]
      exact ih f _ p.2 (by omega)

lemma drain_fused_pres_gps : ∀ (n : Nat) (f g : Telemetry) (b : List Char),
    b.length ≤ n → ((drain Handle.fusedRx ⟨f, g, b⟩).1).gps = g := by
  intro n
  induction n with
  | zero =>
    intro f g b hn
    have hb : b = [] := List.eq_nil_of_length_eq_zero (Nat.le_zero.mp hn)
    subst hb
    rw [drain_eq_none Handle.fusedRx ⟨f, g, []⟩ rfl]
  | succ n ih =>
    intro f g b hn
    cases hsp : splitNl b with
    | none => rw [drain_eq_none Handle.fusedRx ⟨f, g, b⟩ hsp]
    | some p =>
      have hlen := splitNl_some_length hsp
      rw [drain_eq_some Handle.fusedRx ⟨f, g, b⟩ p hsp]
      exact ih _ g p.2 (by omega)

lemma drain_buf_only : ∀ (n : Nat) (h1 h2 : Handle) (f1 g1 f2 g2 : Telemetry) (b : List Char),
    b.length ≤ n → ((drain h1 ⟨f1, g1, b⟩).1).buf = ((drain h2 ⟨f2, g2, b⟩).1).buf := by
  intro n
  induction n with
  | zero =>
    intro h1 h2 f1 g1 f2 g2 b hn
    have hb : b = [] := List.eq_nil_of_length_eq_zero (Nat.le_zero.mp hn)
    subst hb
    rw [drain_eq_none h1 ⟨f1, g1, []⟩ rfl, drain_eq_none h2 ⟨f2, g2, []⟩ rfl]
  | succ n ih =>
    intro h1 h2 f1 g1 f2 g2 b hn
    cases hsp : splitNl b with
    | none => rw [drain_eq_none h1 ⟨f1, g1, b⟩ hsp, drain_eq_none h2 ⟨f2, g2, b⟩ hsp]
    | some p =>
      have hlen := splitNl_some_length hsp
      rw [drain_eq_some h1 ⟨f1, g1, b⟩ p hsp, drain_eq_some h2 ⟨f2, g2, b⟩ p hsp]
      exact ih h1 h2 _ _ _ _ p.2 (by omega)

/-- C1: chunking invariance of ingestion — for any drained starting state
(the invariant every reachable buffer satisfies), delivering a byte stream
to one channel in arbitrarily split chunks through repeated
`save_received_data` calls produces the same final records, the same
leftover buffer, and the same sequence of applied field updates as one
call on the concatenated stream. -/
theorem unf_c1_chunking_invariance (h : Handle) (s : BLEState) (ds : List (List Char))
    (hdrained : splitNl s.buf = none) :
    ingestMany s h ds = save_received_data s h ds.flatten := by
  induction ds generalizing s with
  | nil =>
    simp only [ingestMany, List.flatten_nil, save_received_data, List.append_nil]
    exact (drain_eq_none h s hdrained).symm
  | cons d ds ih =>
    simp only [ingestMany, List.flatten_cons]
    rw [ih ((save_received_data s h d).1)
        (drain_buf_none h ⟨s.fused, s.gps, s.buf ++ d⟩)]
    simp only [save_received_data]
    rw [← List.append_assoc]
    rw [drain_concat h s.fused s.gps (s.buf ++ d) ds.flatten]

/-- Witness for C1 at a concrete split: two lines delivered in three
chunks, the boundaries falling inside field names. -/
theorem unf_c1_chunking_invariance_witness :
    splitNl initState.buf = none ∧
    ingestMany initState Handle.fusedRx c1Chunks =
      save_received_data initState Handle.fusedRx c1Chunks.flatten :=
  ⟨rfl, unf_c1_chunking_invariance Handle.fusedRx initState c1Chunks rfl⟩

/-- C2: sparse merge — ingesting a latitude-only line and then a
longitude-only line on the Fused channel leaves a record with both
fields set; in general a line's updates never touch a field the line
does not mention. -/
theorem unf_c2_sparse_merge :
    ((save_received_data (save_received_data initState Handle.fusedRx latLine).1
        Handle.fusedRx lonLine).1).fused = ⟨0, 1, 2, 0, 0, 0⟩ ∧
    ∀ (line : List Char) (r : Telemetry) (f : Field),
      f ∉ (lineUpdates line).map Prod.fst →
      (applyUpdates r (lineUpdates line)).get f = r.get f :=
  ⟨by decide, fun line r f hf => applyUpdates_not_mem r (lineUpdates line) f hf⟩

/-- Witness for C2's general part: the longitude-only line does not
mention latitude, so the stored latitude is retained. -/
theorem unf_c2_sparse_merge_witness :
    Field.latitude ∉ (lineUpdates lonLine).map Prod.fst ∧
    (applyUpdates Telemetry.init (lineUpdates lonLine)).get Field.latitude =
      Telemetry.init.get Field.latitude :=
  ⟨by decide, unf_c2_sparse_merge.2 lonLine Telemetry.init Field.latitude (by decide)⟩

/-- C3 counterexample: an incomplete line pending from a Fused-channel write
is consumed by a subsequent GPS-channel write — the shared `rx_buffer`
completes the line and applies its latitude to the *GPS* record, so the
claimed per-channel buffer independence fails. -/
theorem unf_c3_counterexample :
    (save_received_data (save_received_data initState Handle.fusedRx fusedPendingChunk).1
        Handle.gpsRx gpsClosingChunk).1 =
      ⟨Telemetry.init, ⟨0, 9, 0, 0, 0, 0⟩, []⟩ := by decide

/-- C3 amended: all three channels share the single `rx_buffer` (its
evolution is independent of which channel a chunk arrives on), the two
stored records themselves are per-channel (a write routed to one never
edits the other's record), and pending bytes from one channel can be
consumed and applied by a write on another channel. -/
theorem unf_c3_shared_buffer :
    (∀ (s : BLEState) (h1 h2 : Handle) (d : List Char),
      ((save_received_data s h1 d).1).buf = ((save_received_data s h2 d).1).buf) ∧
    (∀ (s : BLEState) (d : List Char),
      ((save_received_data s Handle.gpsRx d).1).fused = s.fused ∧
      ((save_received_data s Handle.fusedRx d).1).gps = s.gps) ∧
    ((save_received_data (save_received_data initState Handle.fusedRx fusedPendingChunk).1
        Handle.gpsRx gpsClosingChunk).1).gps.latitude = 9 :=
  ⟨fun s h1 h2 d =>
      drain_buf_only (s.buf ++ d).length h1 h2 s.fused s.gps s.fused s.gps (s.buf ++ d) le_rfl,
   fun s d =>
      ⟨drain_gps_pres_fused (s.buf ++ d).length s.fused s.gps (s.buf ++ d) le_rfl,
       drain_fused_pres_gps (s.buf ++ d).length s.fused s.gps (s.buf ++ d) le_rfl⟩,
   by decide⟩

/-- C4 counterexample: the complete line `xx{"latitude":5.0}yy\n` — whose
trimmed text neither starts with `{` nor ends with `}` — is *not*
discarded: the parser crops to the brace span and updates the record. -/
theorem unf_c4_counterexample :
    ((save_received_data initState Handle.fusedRx croppedLine).1).fused.latitude = 5 ∧
    ((save_received_data initState Handle.fusedRx croppedLine).1).fused ≠
      initState.fused := by decide

/-- C4 amended: a complete line is discarded as a fragment exactly when
its cleaned text contains no `{...}` span (first `{` strictly before the
last `}`); such a line is consumed with no record update and no trace,
and the concrete `not-json` line followed by a valid latitude line still
parses. -/
theorem unf_c4_fragment_discard :
    (∀ (fused gps : Telemetry) (h : Handle) (line : List Char),
      nlChar ∉ line → cropBraces (cleanLine line) = none →
      save_received_data ⟨fused, gps, []⟩ h (line ++ [nlChar]) = (⟨fused, gps, []⟩, [])) ∧
    (save_received_data (save_received_data initState Handle.fusedRx notJsonLine).1
        Handle.fusedRx lat3Line).1 = ⟨⟨0, 3, 0, 0, 0, 0⟩, Telemetry.init, []⟩ := by
  constructor
  · intro fused gps h line hnl hc
    have hlu := lineUpdates_of_crop_none line hc
    have hsp : splitNl (([] : List Char) ++ (line ++ [nlChar])) = some (line, []) := by
      simpa using splitNl_terminated line [] hnl
    have ha : appliedUpdates h line = [] := by
      cases h <;> simp [appliedUpdates, hlu]
    unfold save_received_data
    rw [drain_eq_some h ⟨fused, gps, [] ++ (line ++ [nlChar])⟩ (line, []) hsp]
    rw [hlu, applyTo_nil]
    rw [drain_eq_none h ⟨fused, gps, []⟩ rfl]
    simp [ha]
  · decide

/-- Witness for C4's universal part at the concrete fragment `not-json`. -/
theorem unf_c4_fragment_discard_witness :
    nlChar ∉ notJsonBody ∧ cropBraces (cleanLine notJsonBody) = none ∧
    save_received_data ⟨Telemetry.init, Telemetry.init, []⟩ Handle.fusedRx
      (notJsonBody ++ [nlChar]) = (⟨Telemetry.init, Telemetry.init, []⟩, []) :=
  ⟨by decide, by decide,
   unf_c4_fragment_discard.1 Telemetry.init Telemetry.init Handle.fusedRx notJsonBody
     (by decide) (by decide)⟩


lemma runPM_small : ∀ (samples : List (Nat × Rat)) (s : PMState),
    s.idle = false →
    (∀ p ∈ samples, pyLt (pyAbs p.2) NO_LOAD_THRESHOLD_G = true) →
    s.no_load_count + samples.length < NO_LOAD_STABLE_SAMPLES →
    runPM s samples = ⟨s.no_load_count + samples.length, s.last_active_ms, false⟩ := by
  intro samples
  induction samples with
  | nil =>
    intro s h1 _ _
    obtain ⟨c, l, i⟩ := s
    simp only at h1
    simp [runPM, h1]
  | cons p ps ih =>
    intro s h1 hall hcount
    obtain ⟨c, l, i⟩ := s
    simp only at h1 hcount
    subst h1
    have hp := hall p (List.mem_cons_self p ps)
    have hstep : update_with_weight ⟨c, l, false⟩ p.1 p.2 = ⟨c + 1, l, false⟩ := by
      unfold update_with_weight
      rw [if_pos hp, if_neg]
      simp only [List.length_cons, NO_LOAD_STABLE_SAMPLES] at hcount ⊢
      omega
    have hrest := ih ⟨c + 1, l, false⟩ rfl
      (fun q hq => hall q (List.mem_cons_of_mem p hq))
      (by simp only [List.length_cons] at hcount; simpa using by omega)
    simp only [runPM, List.foldl_cons] at hrest ⊢
    rw [hstep, hrest]
    simp only [List.length_cons, PMState.mk.injEq]
    exact ⟨by omega, trivial, trivial⟩

/-- C6: sampling-controller hysteresis — from the initial state,
`NO_LOAD_STABLE_SAMPLES - 1` consecutive below-threshold samples leave
`idle = false` and one more such sample sets `idle = true`; from any
state, a single at-or-above-threshold sample immediately resets the
counter, records the sample time, and clears `idle`. -/
theorem unf_c6_pm_hysteresis :
    (∀ (t0 : Nat) (samples : List (Nat × Rat)),
      samples.length = NO_LOAD_STABLE_SAMPLES - 1 →
      (∀ p ∈ samples, pyLt (pyAbs p.2) NO_LOAD_THRESHOLD_G = true) →
      (runPM (pmInit t0) samples).idle = false ∧
      ∀ (now : Nat) (w : Rat), pyLt (pyAbs w) NO_LOAD_THRESHOLD_G = true →
        (update_with_weight (runPM (pmInit t0) samples) now w).idle = true) ∧
    (∀ (s : PMState) (now : Nat) (w : Rat),
      pyLt (pyAbs w) NO_LOAD_THRESHOLD_G = false →
      update_with_weight s now w = ⟨0, now, false⟩) := by
  constructor
  · intro t0 samples hlen hall
    have hrun : runPM (pmInit t0) samples = ⟨NO_LOAD_STABLE_SAMPLES - 1, t0, false⟩ := by
      have h0 := runPM_small samples (pmInit t0) rfl hall
        (by simp [pmInit, hlen, NO_LOAD_STABLE_SAMPLES])
      simpa [pmInit, hlen] using h0
    constructor
    · rw [hrun]
    · intro now w hw
      rw [hrun]
      unfold update_with_weight
      rw [if_pos hw, if_pos (by simp [NO_LOAD_STABLE_SAMPLES])]
  · intro s now w hw
    unfold update_with_weight
    rw [if_neg]
    simp [hw]

/-- Witness for C6 at concrete samples: 19 zero-weight samples, a 20th
zero-weight sample, and a heavy sample from an arbitrary idle state. -/
theorem unf_c6_pm_hysteresis_witness :
    (samples19.length = NO_LOAD_STABLE_SAMPLES - 1 ∧
     (runPM (pmInit 0) samples19).idle = false ∧
     (update_with_weight (runPM (pmInit 0) samples19) 7 0).idle = true) ∧
    (pyLt (pyAbs 5) NO_LOAD_THRESHOLD_G = false ∧
     update_with_weight ⟨3, 0, true⟩ 42 5 = ⟨0, 42, false⟩) := by
  refine ⟨⟨by decide, ?_, ?_⟩, by decide, ?_⟩
  · exact (unf_c6_pm_hysteresis.1 0 samples19 (by decide) (by decide)).1
  · exact (unf_c6_pm_hysteresis.1 0 samples19 (by decide) (by decide)).2 7 0 (by decide)
  · exact unf_c6_pm_hysteresis.2 ⟨3, 0, true⟩ 42 5 (by decide)

/-- C9: the Weight-channel payload has exactly the fixed key set with
`from = "weight"`, `weight = 12.5` (`mkRat 25 2`), `idle = false`, and
zero location fields, for every stored Fused/GPS record. -/
theorem unf_c9_weight_roundtrip :
    mkRat 25 2 = (12.5 : Rat) ∧
    ∀ (fused gps : Telemetry),
      send_tx_as_json_response TxHandle.weightTx (mkRat 25 2) false fused gps =
        some ⟨"weight", mkRat 25 2, 0, 0, 0, 0, 0, 0, false⟩ :=
  ⟨by norm_num [Rat.mkRat_eq_div], fun _ _ => rfl⟩


/-- C7 counterexample: with the default timings, after Connect, Transfer
and Error all at tick 0, the combo manager's `update()` at time 0 — well
inside the 2000 ms error window — drives OFF (the red blink's off
phase), not the Error color. -/
theorem unf_c7_counterexample :
    Combo.on_error (Combo.on_transfer (Combo.on_connect Combo.initL) 0) 0 =
      (⟨true, some 0, some 0⟩ : Combo.LState) ∧
    winB 0 (some 0) Combo.defaults.w_red = true ∧
    Combo.update Combo.defaults ⟨true, some 0, some 0⟩ 0 = C_OFF ∧
    C_OFF ≠ C_R := by decide

/-- C7 amended: error dominates the resolution in both variants — the
sticky S3 manager drives solid red whenever the error flag is set, and
the windowed combo manager resolves every tick inside the error window
to the error blink pattern (red or off by phase), independent of any
overlapping transfer pulse and never the transfer color. -/
theorem unf_c7_error_priority :
    (∀ (cfg : S3M.Cfg) (s : S3M.MState) (now : Nat),
      s.error_active = true → S3M.update cfg s now = C_R) ∧
    (∀ (cfg : Combo.Cfg) (conn : Bool) (tx : Option Nat) (te now : Nat),
      winB now (some te) cfg.w_red = true →
      Combo.update cfg ⟨conn, tx, some te⟩ now =
        (if blinkPhase now cfg.p_red = 1 then C_R else C_OFF)) := by
  constructor
  · intro cfg s now hs
    simp [S3M.update, hs]
  · intro cfg conn tx te now hw
    simp [Combo.update, hw]

/-- Witness for C7 amended: a sticky-error state, and a combo state at a
red on-phase tick with an overlapping transfer pulse. -/
theorem unf_c7_error_priority_witness :
    ((⟨true, some 3, true⟩ : S3M.MState).error_active = true ∧
     S3M.update S3M.defaults ⟨true, some 3, true⟩ 5 = C_R) ∧
    (winB 90 (some 0) Combo.defaults.w_red = true ∧
     Combo.update Combo.defaults ⟨true, some 90, some 0⟩ 90 =
       (if blinkPhase 90 Combo.defaults.p_red = 1 then C_R else C_OFF)) :=
  ⟨⟨rfl, unf_c7_error_priority.1 S3M.defaults ⟨true, some 3, true⟩ 5 rfl⟩,
   ⟨by decide, unf_c7_error_priority.2 Combo.defaults true (some 90) 0 90 (by decide)⟩⟩

/-- C8: degraded-output isolation — a failing NeoPixel write marks only
the NeoPixel degraded while the discrete pins are still driven with the
resolved color in the same call; once degraded, every later write skips
the NeoPixel but keeps resolving the logical state and driving the pins. -/
theorem unf_c8_degraded_isolation :
    (∀ (low : Bool) (br : Rat) (o : Combo.OutState) (c : Color),
      o.np_ok = true →
      (Combo.set_rgb low br o c true).np_ok = false ∧
      (Combo.set_rgb low br o c true).np_px = o.np_px ∧
      (Combo.set_rgb low br o c true).pin_r = Combo.pinVal low (decide (0 < c.r)) ∧
      (Combo.set_rgb low br o c true).pin_g = Combo.pinVal low (decide (0 < c.g)) ∧
      (Combo.set_rgb low br o c true).pin_b = Combo.pinVal low (decide (0 < c.b))) ∧
    (∀ (low : Bool) (br : Rat) (o : Combo.OutState) (c : Color) (f : Bool),
      o.np_ok = false →
      Combo.set_rgb low br o c f =
        ⟨false, o.np_px, Combo.pinVal low (decide (0 < c.r)),
         Combo.pinVal low (decide (0 < c.g)), Combo.pinVal low (decide (0 < c.b))⟩) ∧
    (∀ (cfg : Combo.Cfg) (low : Bool) (br : Rat) (s : Combo.LState) (o : Combo.OutState)
       (now : Nat) (f : Bool),
      o.np_ok = false →
      Combo.tick cfg low br s o now f =
        ⟨false, o.np_px, Combo.pinVal low (decide (0 < (Combo.update cfg s now).r)),
         Combo.pinVal low (decide (0 < (Combo.update cfg s now).g)),
         Combo.pinVal low (decide (0 < (Combo.update cfg s now).b))⟩) := by
  refine ⟨?_, ?_, ?_⟩
  · intro low br o c ho
    simp [Combo.set_rgb, ho]
  · intro low br o c f ho
    obtain ⟨ok, px, pr, pg, pb⟩ := o
    simp only at ho
    subst ho
    simp [Combo.set_rgb]
  · intro cfg low br s o now f ho
    obtain ⟨ok, px, pr, pg, pb⟩ := o
    simp only at ho
    subst ho
    simp [Combo.tick, Combo.set_rgb]

/-- Witness for C8: a healthy output hit by a failing write, and a
degraded output still driving the pins on the next tick. -/
theorem unf_c8_degraded_isolation_witness :
    ((⟨true, none, false, false, false⟩ : Combo.OutState).np_ok = true ∧
     (Combo.set_rgb false (mkRat 1 5) ⟨true, none, false, false, false⟩ C_G true).np_ok =
       false) ∧
    ((⟨false, some C_R, false, false, false⟩ : Combo.OutState).np_ok = false ∧
     Combo.tick Combo.defaults false (mkRat 1 5) ⟨true, none, none⟩
         ⟨false, some C_R, false, false, false⟩ 0 true =
       ⟨false, some C_R,
        Combo.pinVal false (decide (0 < (Combo.update Combo.defaults ⟨true, none, none⟩ 0).r)),
        Combo.pinVal false (decide (0 < (Combo.update Combo.defaults ⟨true, none, none⟩ 0).g)),
        Combo.pinVal false (decide (0 < (Combo.update Combo.defaults ⟨true, none, none⟩ 0).b))⟩) :=
  ⟨⟨rfl,
    (unf_c8_degraded_isolation.1 false (mkRat 1 5) ⟨true, none, false, false, false⟩ C_G
      rfl).1⟩,
   ⟨rfl,
    unf_c8_degraded_isolation.2.2 Combo.defaults false (mkRat 1 5) ⟨true, none, none⟩
      ⟨false, some C_R, false, false, false⟩ 0 true rfl⟩⟩

/-- C10: sticky error in the S3 manager — from any error-flagged state,
any sequence of API calls that does not contain `clear_error` leaves the
flag set and every color written during the sequence (in particular by
every `update()`) is solid red; `clear_error` resets the flag, after
which `update()` never resolves red. -/
theorem unf_c10_sticky_error :
    (∀ (cfg : S3M.Cfg) (s : S3M.MState) (evs : List S3M.Ev),
      s.error_active = true →
      (∀ e ∈ evs, S3M.Ev.isClear e = false) →
      ((S3M.run cfg s evs).1.error_active = true ∧
       ∀ c ∈ (S3M.run cfg s evs).2, c = C_R)) ∧
    (∀ (cfg : S3M.Cfg) (s : S3M.MState) (now : Nat),
      ((S3M.step cfg s (S3M.Ev.clearError now)).1).error_active = false) ∧
    (∀ (cfg : S3M.Cfg) (s : S3M.MState) (now : Nat),
      s.error_active = false → S3M.update cfg s now ≠ C_R) := by
  refine ⟨?_, fun _ _ _ => rfl, ?_⟩
  · intro cfg s evs
    induction evs generalizing s with
    | nil =>
      intro hs _
      exact ⟨hs, by simp [S3M.run]⟩
    | cons e es ih =>
      intro hs hall
      have he := hall e (List.mem_cons_self e es)
      have hstep1 : (S3M.step cfg s e).1.error_active = true := by
        cases e <;> simp_all [S3M.step, S3M.Ev.isClear]
      have hstep2 : ∀ c ∈ (S3M.step cfg s e).2, c = C_R := by
        cases e <;> simp_all [S3M.step, S3M.Ev.isClear, S3M.update]
      have hrec := ih (S3M.step cfg s e).1 hstep1
        (fun q hq => hall q (List.mem_cons_of_mem e hq))
      refine ⟨by simpa [S3M.run] using hrec.1, ?_⟩
      intro c hc
      simp only [S3M.run] at hc
      rcases List.mem_append.mp hc with h1 | h2
      · exact hstep2 c h1
      · exact hrec.2 c h2
  · intro cfg s now hs
    unfold S3M.update
    simp only [hs]
    split_ifs <;> first
    | exact fun hcr => (by assumption : False)
    | decide

/-- Witness for C10: a concrete error state run through connect,
transfer, update, disconnect, update with no clear, plus a cleared
state's non-red resolution. -/
theorem unf_c10_sticky_error_witness :
    (errS.error_active = true ∧
     (∀ e ∈ evList, S3M.Ev.isClear e = false) ∧
     ((S3M.run S3M.defaults errS evList).1.error_active = true ∧
      ∀ c ∈ (S3M.run S3M.defaults errS evList).2, c = C_R)) ∧
    (S3M.initM.error_active = false ∧
     S3M.update S3M.defaults S3M.initM 0 ≠ C_R) :=
  ⟨⟨rfl, by decide,
    unf_c10_sticky_error.1 S3M.defaults errS evList rfl (by decide)⟩,
   ⟨rfl, unf_c10_sticky_error.2.2 S3M.defaults S3M.initM 0 rfl⟩⟩


/-- C5 counterexample: `{"a":{"latitude":1.0},"latitude":2.0}` is valid
JSON whose strict decode yields top-level latitude 2.0, yet ingesting
the line stores latitude 1.0 — the tolerant scan's first-occurrence
extraction.  A valid-JSON line is therefore *not* decoded strictly; the
claimed strict-then-tolerant staging is absent from the active parser. -/
theorem unf_c5_counterexample :
    (ujson_loads (cleanLine nestedLine)).isSome = true ∧
    strictUpdates nestedLine = some [(Field.latitude, 2)] ∧
    lineUpdates nestedLine = [(Field.latitude, 1)] ∧
    ((save_received_data initState Handle.fusedRx (nestedLine ++ [nlChar])).1).fused.latitude
      = 1 := by decide

/-- C5 amended: the active ingestion path handles every complete braced
line with the tolerant scan alone — single-line ingestion on a drained
buffer routes exactly the tolerant extraction `lineUpdates`, no strict
decode is attempted first, and on valid JSON the two stages can
disagree (nested-object line: tolerant 1.0 vs strict 2.0). -/
theorem unf_c5_tolerant_only :
    (∀ (fused gps : Telemetry) (h : Handle) (line : List Char),
      nlChar ∉ line →
      save_received_data ⟨fused, gps, []⟩ h (line ++ [nlChar]) =
        (⟨(applyTo h fused gps (lineUpdates line)).1,
          (applyTo h fused gps (lineUpdates line)).2, []⟩,
         appliedUpdates h line)) ∧
    strictUpdates nestedLine = some [(Field.latitude, 2)] ∧
    lineUpdates nestedLine = [(Field.latitude, 1)] := by
  refine ⟨?_, by decide, by decide⟩
  intro fused gps h line hnl
  have hsp : splitNl (([] : List Char) ++ (line ++ [nlChar])) = some (line, []) := by
    simpa using splitNl_terminated line [] hnl
  unfold save_received_data
  rw [drain_eq_some h ⟨fused, gps, [] ++ (line ++ [nlChar])⟩ (line, []) hsp]
  rw [drain_eq_none h ⟨(applyTo h fused gps (lineUpdates line)).1,
      (applyTo h fused gps (lineUpdates line)).2, []⟩ rfl]
  simp

/-- Witness for C5's universal part at the nested-object line. -/
theorem unf_c5_tolerant_only_witness :
    nlChar ∉ nestedLine ∧
    save_received_data ⟨Telemetry.init, Telemetry.init, []⟩ Handle.fusedRx
        (nestedLine ++ [nlChar]) =
      (⟨(applyTo Handle.fusedRx Telemetry.init Telemetry.init (lineUpdates nestedLine)).1,
        (applyTo Handle.fusedRx Telemetry.init Telemetry.init (lineUpdates nestedLine)).2, []⟩,
       appliedUpdates Handle.fusedRx nestedLine) :=
  ⟨by decide,
   unf_c5_tolerant_only.1 Telemetry.init Telemetry.init Handle.fusedRx nestedLine (by decide)⟩

end UNF
